import Mathlib

/-!
# Verification of the YTDownloader format-negotiation core

Shallow embedding of the two Python modules `yt-dowloader.py` (procedural)
and `ytcmd.py` (class `YTDownloader`), restricted to the pure decision
logic: the transcoder-availability probe, the byte-scaling function, the
progress renderer, the selection-expression builder, the quality-catalog
construction and the interactive quality-resolution loop.

Conventions of the embedding:
* Python numbers that flow through float division are modelled as `ℚ`;
  every concrete value exercised here is an exact binary fraction, where
  float and rational arithmetic agree.
* A Python value that may be absent (missing key, `None`) is an `Option`.
* Python truthiness of a number is "≠ 0", of a string "≠ empty".
* Code that may raise models its result as `Except`, the exception class
  being part of the input.
-/

/-- Outcome of attempting to launch the `ffmpeg -version` subprocess:
the launch succeeds with some exit code, fails because the executable
cannot be located (Python `FileNotFoundError`), or fails for another
reason (e.g. `PermissionError`), carried as a message. -/
inductive LaunchOutcome where
  | launched (exitCode : Int)
  | fileNotFound
  | otherError (msg : String)
deriving DecidableEq

/-- Embeds `check_ffmpeg` of `yt-dowloader.py` (lines 8–17): the body runs
`subprocess.run(['ffmpeg','-version'], capture_output=True)` inside
`try`/`except FileNotFoundError`.  Only `FileNotFoundError` is caught and
mapped to `False`; a successful launch returns `True` (the exit code is
never inspected); any other exception escapes to the caller, modelled as
`Except.error`. -/
def check_ffmpeg (probe : LaunchOutcome) : Except String Bool :=
  match probe with
  | .launched _ => .ok true
  | .fileNotFound => .ok false
  | .otherError msg => .error msg

/-- A raw format descriptor as read by the code: `f.get('height')` and
`f.get('acodec')`.  `none` models a missing key (or a `None` value). -/
structure RawFormat where
  height : Option Nat
  acodec : Option String
deriving DecidableEq

/-- Embeds `get_best_format(formats, target_height, ffmpeg_available)` of
`yt-dowloader.py` (lines 54–64).  The `formats` argument is accepted and,
as in the source, never used; the result is one of two f-strings. -/
def get_best_format (formats : List RawFormat) (target_height : Nat)
    (ffmpeg_available : Bool) : String :=
  if ffmpeg_available then
    "bestvideo[height<=" ++ toString target_height ++
      "][ext=mp4]+bestaudio[ext=m4a]/best[height<=" ++
      toString target_height ++ "][ext=mp4]/best"
  else
    "best[height<=" ++ toString target_height ++ "][ext=mp4]/best[ext=mp4]/best"

/-- Written from the spec's words (§4.3), for comparison with
`get_best_format`: "best video stream with height ≤ targetHeight paired
with best audio stream, both constrained to a specific preferred
container" — the first tier of the transcoder-available chain. -/
def specTierVideoPlusAudio (h : Nat) : String :=
  "bestvideo[height<=" ++ toString h ++ "][ext=mp4]" ++ "+" ++ "bestaudio[ext=m4a]"

/-- Written from the spec's words (§4.3): "best combined stream with
height ≤ targetHeight in that container". -/
def specTierCombinedAtMost (h : Nat) : String :=
  "best[height<=" ++ toString h ++ "][ext=mp4]"

/-- Written from the spec's words (§4.3): "best combined stream in that
container at any height". -/
def specTierCombinedAny : String :=
  "best[ext=mp4]"

/-- Written from the spec's words (§4.3): "the best available stream of
any container/height". -/
def specTierBest : String :=
  "best"

/-- Written from the spec's words (§4.3): the three-tier preference chain,
tiers joined by the collaborator's alternative separator `/`, one chain
per transcoder-availability branch. -/
def specSelectionChain (h : Nat) (transcoderAvailable : Bool) : String :=
  if transcoderAvailable then
    specTierVideoPlusAudio h ++ "/" ++ specTierCombinedAtMost h ++ "/" ++ specTierBest
  else
    specTierCombinedAtMost h ++ "/" ++ specTierCombinedAny ++ "/" ++ specTierBest

/-- Floor of a rational, `⌊q⌋`, computed on the numerator/denominator pair. -/
def ratFloor (q : ℚ) : ℤ := Int.fdiv q.num (q.den : ℤ)

/-- Round to the nearest integer, ties to the even integer: the rounding
Python's fixed-point formatting performs on values our rational model
represents exactly. -/
def roundHalfEven (q : ℚ) : ℤ :=
  let f := ratFloor q
  let r := q - (f : ℚ)
  if r < 1 / 2 then f
  else if 1 / 2 < r then f + 1
  else if f % 2 = 0 then f else f + 1

/-- Zero-pad a number below 100 to two digits, as `%02d` / the fractional
part of `%.2f` and the `%M`, `%S` directives do. -/
def pad2 (n : ℕ) : String :=
  if n < 10 then "0" ++ toString n else toString n

/-- Python `f"{q:.2f}"` for a nonnegative value that our rational model
represents exactly. -/
def format2 (q : ℚ) : String :=
  let c := roundHalfEven (q * 100)
  toString (c / 100) ++ "." ++ pad2 ((c % 100).toNat)

/-- Python `f"{q:.1f}"` for a nonnegative value that our rational model
represents exactly. -/
def format1 (q : ℚ) : String :=
  let c := roundHalfEven (q * 10)
  toString (c / 10) ++ "." ++ toString ((c % 10).toNat)

/-- Embeds the `for unit in ['B', 'KB', 'MB', 'GB']` loop inside
`format_size` (`yt-dowloader.py` lines 25–29): return at the first unit
where the running value is below 1024, else divide by 1024 and continue;
when the unit list is exhausted the code falls through to
`return f"{bytes:.2f} GB"` — after one more division than the `GB`
iteration already applied. -/
def sizeLoop : List String → ℚ → String
  | [], b => format2 b ++ " GB"
  | unit :: rest, b =>
      if b < 1024 then format2 b ++ " " ++ unit else sizeLoop rest (b / 1024)

/-- Embeds `format_size(bytes)` of `yt-dowloader.py` (lines 20–29). -/
def format_size (bytes : ℚ) : String :=
  sizeLoop ["B", "KB", "MB", "GB"] bytes

/-- Embeds `datetime.fromtimestamp(eta).strftime('%M:%S')`
(`yt-dowloader.py` line 47) at a whole-hour UTC offset, where the
minute and second fields of the local clock at epoch-second `eta` are
`(eta / 60) % 60` and `eta % 60`; both directives zero-pad to two
digits. -/
def etaFormat (eta : ℤ) : String :=
  pad2 ((eta / 60 % 60).toNat) ++ ":" ++ pad2 ((eta % 60).toNat)

/-- A progress event dictionary as read by `progress_hook`: each field
models `d.get(...)` with `none` for a missing key or a `None` value. The
`status` key is always present (the code indexes `d['status']`
directly). -/
structure ProgressSample where
  status : String
  downloaded_bytes : Option ℚ
  total_bytes : Option ℚ
  total_bytes_estimate : Option ℚ
  speed : Option ℚ
  eta : Option ℤ
deriving DecidableEq

/-- Python `x or y` on numbers: `y` when `x` is falsy (zero), else `x`. -/
def pyOr (x y : ℚ) : ℚ := if x = 0 then y else x

/-- The total byte count the hook computes:
`d.get('total_bytes', 0) or d.get('total_bytes_estimate', 0)`
(`yt-dowloader.py` line 39). -/
def totalOf (d : ProgressSample) : ℚ :=
  pyOr (d.total_bytes.getD 0) (d.total_bytes_estimate.getD 0)

/-- Embeds `progress_hook(d)` of `yt-dowloader.py` (lines 32–51).  The
rendered status line (written to stdout in the source) is returned as
`some`; the silent paths return `none`. -/
def progress_hook (d : ProgressSample) : Option String :=
  if d.status = "downloading" then
    let downloaded := d.downloaded_bytes.getD 0
    let total := totalOf d
    if total ≠ 0 then
      let percentage := downloaded / total * 100
      let speed := d.speed.getD 0
      let speed_str := if speed ≠ 0 then format_size speed ++ "/s" else "N/A"
      let eta_str :=
        match d.eta with
        | some e => if e ≠ 0 then etaFormat e else "N/A"
        | none => "N/A"
      some ("\rProgress: " ++ format1 percentage ++ "% | Speed: " ++ speed_str
        ++ " | ETA: " ++ eta_str)
    else none
  else none

/-- Substring relation: `needle` occurs contiguously inside `hay`. -/
def strContains (needle hay : String) : Prop :=
  needle.data <:+: hay.data

instance (needle hay : String) : Decidable (strContains needle hay) :=
  List.decidableInfix needle.data hay.data

/-- Decimal digits of `n`, most significant first, with enough fuel to
terminate; `natDecimalAux (n + 1) n` always has enough.  Fuelled (rather
than well-founded) recursion keeps the definition kernel-reducible. -/
def natDecimalAux : Nat → Nat → List Char
  | 0, _ => []
  | fuel + 1, n =>
      if n < 10 then [Nat.digitChar n]
      else natDecimalAux fuel (n / 10) ++ [Nat.digitChar (n % 10)]

/-- Decimal digits of `n`, most significant first: the characters Python
produces for `f"{n}"` on a nonnegative integer. -/
def natDecimal (n : Nat) : List Char := natDecimalAux (n + 1) n

/-- Embeds the label construction `f"{height}p"`
(`yt-dowloader.py` line 117). -/
def qLabel (height : Nat) : String := ⟨natDecimal height ++ ['p']⟩

/-- Numeric value of a decimal digit character. -/
def digitVal (c : Char) : Nat := c.toNat - 48

/-- Value of a most-significant-first decimal digit string. -/
def digitsVal (cs : List Char) : Nat :=
  cs.foldl (fun n c => 10 * n + digitVal c) 0

/-- Embeds the sort key `int(x.replace('p', ''))`
(`yt-dowloader.py` line 120): drop every `'p'` and read the rest as a
decimal number. -/
def labelNum (s : String) : Nat :=
  digitsVal (s.data.filter (fun c => c ≠ 'p'))

theorem digitChar_isDigit {n : Nat} (h : n < 10) : (Nat.digitChar n).isDigit = true := by
  interval_cases n <;> decide

theorem natDecimalAux_digits :
    ∀ fuel n, n < fuel → ∀ c ∈ natDecimalAux fuel n, c.isDigit = true := by
  intro fuel
  induction fuel with
  | zero => omega
  | succ fuel ih =>
    intro n hn c hc
    rw [natDecimalAux] at hc
    split at hc
    · next h =>
      simp at hc
      subst hc
      exact digitChar_isDigit h
    · next h =>
      rw [List.mem_append] at hc
      rcases hc with hc | hc
      · have hlt : n / 10 < n := Nat.div_lt_self (by omega) (by omega)
        exact ih (n / 10) (by omega) c hc
      · simp at hc
        subst hc
        exact digitChar_isDigit (Nat.mod_lt _ (by omega))

theorem natDecimal_digits (n : Nat) : ∀ c ∈ natDecimal n, c.isDigit = true :=
  natDecimalAux_digits (n + 1) n (by omega)

theorem isDigit_ne_p {c : Char} (h : c.isDigit = true) : c ≠ 'p' := by
  intro he; subst he; simp [Char.isDigit] at h

theorem digitsVal_append (a : List Char) (c : Char) :
    digitsVal (a ++ [c]) = 10 * digitsVal a + digitVal c := by
  simp [digitsVal, List.foldl_append]

theorem digitVal_digitChar {n : Nat} (h : n < 10) : digitVal (Nat.digitChar n) = n := by
  interval_cases n <;> decide

theorem digitsVal_natDecimalAux :
    ∀ fuel n, n < fuel → digitsVal (natDecimalAux fuel n) = n := by
  intro fuel
  induction fuel with
  | zero => omega
  | succ fuel ih =>
    intro n hn
    rw [natDecimalAux]
    split
    · next h =>
      simp [digitsVal]
      exact digitVal_digitChar h
    · next h =>
      have hlt : n / 10 < n := Nat.div_lt_self (by omega) (by omega)
      rw [digitsVal_append, ih (n / 10) (by omega),
        digitVal_digitChar (Nat.mod_lt _ (by omega))]
      omega

theorem digitsVal_natDecimal (n : Nat) : digitsVal (natDecimal n) = n :=
  digitsVal_natDecimalAux (n + 1) n (by omega)

/-- The sort key of the source recovers the height from a label:
`int(qLabel(h).replace('p', '')) = h`. -/
theorem labelNum_qLabel (n : Nat) : labelNum (qLabel n) = n := by
  have hd : (qLabel n).data = natDecimal n ++ ['p'] := rfl
  rw [labelNum, hd, List.filter_append]
  have h1 : (natDecimal n).filter (fun c => c ≠ 'p') = natDecimal n :=
    List.filter_eq_self.mpr fun c hc => by
      simpa using isDigit_ne_p (natDecimal_digits n c hc)
  have h2 : (['p'] : List Char).filter (fun c => c ≠ 'p') = [] := by decide
  rw [h1, h2, List.append_nil, digitsVal_natDecimal]

theorem qLabel_injective : Function.Injective qLabel := by
  intro a b hab
  have := congrArg labelNum hab
  rwa [labelNum_qLabel, labelNum_qLabel] at this

/-- Embeds the membership test of the catalog loop
(`yt-dowloader.py` line 116):
`if height and (ffmpeg_available or f.get('acodec') != 'none')`.
A missing height (`None`) and a zero height are both falsy; a missing
`acodec` compares unequal to the string `'none'`. -/
def includeFormat (ffmpeg_available : Bool) (f : RawFormat) : Bool :=
  match f.height with
  | none => false
  | some h => decide (h ≠ 0) && (ffmpeg_available || decide (f.acodec ≠ some "none"))

/-- The multiset of heights the loop adds to `quality_set`
(each as the label `f"{height}p"`; we keep the numeric height, the label
being the injective image under `qLabel`). -/
def heightList (ffmpeg_available : Bool) (formats : List RawFormat) : List Nat :=
  formats.filterMap
    (fun f => if includeFormat ffmpeg_available f then f.height else none)

/-- Embeds the catalog construction of `download_video`
(`yt-dowloader.py` lines 110–120): `quality_set` is a Python set (here:
deduplicated heights), and `quality_list` sorts it ascending by
`int(label.replace('p', ''))`, which by `labelNum_qLabel` is the height
itself; the labels are then the `qLabel` images of the sorted heights. -/
def buildCatalog (ffmpeg_available : Bool) (formats : List RawFormat) : List String :=
  (((heightList ffmpeg_available formats).dedup).insertionSort (· ≤ ·)).map qLabel

theorem mem_heightList (a : Bool) (formats : List RawFormat) (h : Nat) :
    h ∈ heightList a formats ↔
      ∃ f ∈ formats, f.height = some h ∧ includeFormat a f = true := by
  simp only [heightList, List.mem_filterMap]
  constructor
  · rintro ⟨f, hf, hval⟩
    split at hval
    · next hinc => exact ⟨f, hf, hval, hinc⟩
    · exact absurd hval (by simp)
  · rintro ⟨f, hf, hh, hinc⟩
    exact ⟨f, hf, by rw [if_pos hinc]; exact hh⟩

theorem mem_buildCatalog (a : Bool) (formats : List RawFormat) (h : Nat) :
    qLabel h ∈ buildCatalog a formats ↔
      ∃ f ∈ formats, f.height = some h ∧ includeFormat a f = true := by
  rw [buildCatalog, List.mem_map]
  constructor
  · rintro ⟨h', hmem, heq⟩
    have : h' = h := qLabel_injective heq
    subst this
    rw [(List.perm_insertionSort _ _).mem_iff, List.mem_dedup, mem_heightList] at hmem
    exact hmem
  · intro hex
    refine ⟨h, ?_, rfl⟩
    rw [(List.perm_insertionSort _ _).mem_iff, List.mem_dedup, mem_heightList]
    exact hex

theorem sortedHeights_nodup (a : Bool) (formats : List RawFormat) :
    (((heightList a formats).dedup).insertionSort (· ≤ ·)).Nodup :=
  ((List.perm_insertionSort _ _).nodup_iff).mpr (List.nodup_dedup _)

/-- Value of a nonempty all-digit character string, else `none`. -/
def parseDigits (cs : List Char) : Option Nat :=
  if cs ≠ [] ∧ cs.all (fun c => c.isDigit) then some (digitsVal cs) else none

/-- Models Python `int(...)` as used on the interactive input
(`yt-dowloader.py` line 131): an optional minus sign followed by decimal
digits parses; anything else raises `ValueError`, modelled as `none`.
(Python also tolerates surrounding whitespace, a plus sign and
underscores; those inputs are immaterial to the claims.) -/
def pyInt (s : String) : Option Int :=
  match s.data with
  | '-' :: rest => (parseDigits rest).map (fun n => -(n : Int))
  | cs => (parseDigits cs).map (fun n => (n : Int))

/-- Embeds the `while True` selection loop of `download_video`
(`yt-dowloader.py` lines 129–138): read an input; a `ValueError` from
`int` re-prompts, an out-of-range choice re-prompts, and a choice with
`1 <= choice <= len(quality_list)` returns `quality_list[choice-1]`.
Exhausting the input list models an aborted session (`none`). -/
def selectionLoop (quality_list : List String) : List String → Option String
  | [] => none
  | inp :: rest =>
      match pyInt inp with
      | some choice =>
          if 1 ≤ choice ∧ choice ≤ quality_list.length then
            quality_list.get? (choice - 1).toNat
          else selectionLoop quality_list rest
      | none => selectionLoop quality_list rest

/-- Embeds the quality-resolution step (`yt-dowloader.py` lines 127–138):
`if not preferred_quality or preferred_quality not in quality_set:` enter
the selection loop, else keep the requested quality.  `quality_set` and
`quality_list` hold the same labels, so membership is tested on the
list. -/
def resolveQuality (preferred_quality : Option String) (quality_list : List String)
    (inputs : List String) : Option String :=
  match preferred_quality with
  | none => selectionLoop quality_list inputs
  | some q =>
      if q = "" ∨ q ∉ quality_list then selectionLoop quality_list inputs
      else some q

/-- An input the loop rejects: not a number, or a parsed choice outside
`1 .. len(quality_list)`. -/
def isInvalid (quality_list : List String) (s : String) : Bool :=
  match pyInt s with
  | none => true
  | some c => decide (¬(1 ≤ c ∧ c ≤ quality_list.length))

/-- The `speed_str` expression of the hook (`yt-dowloader.py` line 44):
`format_size(speed) + '/s' if speed else 'N/A'`. -/
def speedStr (d : ProgressSample) : String :=
  if d.speed.getD 0 ≠ 0 then format_size (d.speed.getD 0) ++ "/s" else "N/A"

/-- The `eta_str` expression of the hook (`yt-dowloader.py` lines 46–47):
the strftime rendering when `eta` is truthy, `'N/A'` otherwise. -/
def etaStr (d : ProgressSample) : String :=
  match d.eta with
  | some e => if e ≠ 0 then etaFormat e else "N/A"
  | none => "N/A"

theorem strContains_of_parts (x a y : String) :
    strContains a (x ++ a ++ y) := by
  refine ⟨x.data, y.data, ?_⟩
  simp [String.data_append]

/-- The progress sample of the spec's §8 example:
`{status:"downloading", downloaded:50, total:200, speed:None, eta:None}`. -/
def sample7 : ProgressSample :=
  { status := "downloading", downloaded_bytes := some 50, total_bytes := some 200,
    total_bytes_estimate := none, speed := none, eta := none }

/-- A five-descriptor fixture: a video-only 1080p track, a 720p track
with audio, an audio-only track, a 360p track with no `acodec` key, and
a video-only 720p track. -/
def demoFormats : List RawFormat :=
  [⟨some 1080, some "none"⟩, ⟨some 720, some "mp4a.40.2"⟩, ⟨none, some "mp4a.40.2"⟩,
   ⟨some 360, none⟩, ⟨some 720, some "none"⟩]

/-- The three-label catalog of the spec's §8 interactive example. -/
def catalog3 : List String := ["480p", "720p", "1080p"]

namespace YTDownloader

/-- Embeds `YTDownloader.check_ffmpeg` of `ytcmd.py` (lines 13–22); the
class holds no state (`__init__` is `pass`), so the method is a plain
function. -/
def check_ffmpeg (probe : LaunchOutcome) : Except String Bool :=
  match probe with
  | .launched _ => .ok true
  | .fileNotFound => .ok false
  | .otherError msg => .error msg

/-- Embeds the unit loop inside `YTDownloader.format_size`
(`ytcmd.py` lines 29–33). -/
def sizeLoop : List String → ℚ → String
  | [], b => format2 b ++ " GB"
  | unit :: rest, b =>
      if b < 1024 then format2 b ++ " " ++ unit else sizeLoop rest (b / 1024)

/-- Embeds `YTDownloader.format_size` of `ytcmd.py` (lines 24–33). -/
def format_size (bytes : ℚ) : String :=
  sizeLoop ["B", "KB", "MB", "GB"] bytes

/-- Embeds `YTDownloader.progress_hook` of `ytcmd.py` (lines 35–54);
identical to the procedural hook except that it calls
`self.format_size`. -/
def progress_hook (d : ProgressSample) : Option String :=
  if d.status = "downloading" then
    let downloaded := d.downloaded_bytes.getD 0
    let total := totalOf d
    if total ≠ 0 then
      let percentage := downloaded / total * 100
      let speed := d.speed.getD 0
      let speed_str :=
        if speed ≠ 0 then YTDownloader.format_size speed ++ "/s" else "N/A"
      let eta_str :=
        match d.eta with
        | some e => if e ≠ 0 then etaFormat e else "N/A"
        | none => "N/A"
      some ("\rProgress: " ++ format1 percentage ++ "% | Speed: " ++ speed_str
        ++ " | ETA: " ++ eta_str)
    else none
  else none

/-- Embeds `YTDownloader.get_best_format` of `ytcmd.py` (lines 56–66). -/
def get_best_format (formats : List RawFormat) (target_height : Nat)
    (ffmpeg_available : Bool) : String :=
  if ffmpeg_available then
    "bestvideo[height<=" ++ toString target_height ++
      "][ext=mp4]+bestaudio[ext=m4a]/best[height<=" ++
      toString target_height ++ "][ext=mp4]/best"
  else
    "best[height<=" ++ toString target_height ++ "][ext=mp4]/best[ext=mp4]/best"

end YTDownloader

theorem ytd_sizeLoop_eq (units : List String) (b : ℚ) :
    YTDownloader.sizeLoop units b = sizeLoop units b := by
  induction units generalizing b with
  | nil => rfl
  | cons u rest ih =>
    rw [YTDownloader.sizeLoop, sizeLoop]
    split
    · rfl
    · exact ih _

theorem append_chunk_best_height (x : String) :
    "][ext=mp4]+bestaudio[ext=m4a]/" ++ ("best[height<=" ++ x) =
      "][ext=mp4]+bestaudio[ext=m4a]/best[height<=" ++ x := by
  rw [← String.append_assoc]
  rfl

/-- C1: for every descriptor list and availability flag, the label
`"<height>p"` of a positive height is in the catalog built by
`download_video` iff some descriptor carries exactly that height and
either the transcoder is available or the descriptor's `acodec` is not
the `'none'` sentinel. -/
theorem buildCatalog_inclusion_iff (a : Bool) (formats : List RawFormat) (h : Nat)
    (hpos : 0 < h) :
    qLabel h ∈ buildCatalog a formats ↔
      ∃ f ∈ formats, f.height = some h ∧ (a = true ∨ f.acodec ≠ some "none") := by
  rw [mem_buildCatalog]
  constructor
  · rintro ⟨f, hf, hh, hinc⟩
    refine ⟨f, hf, hh, ?_⟩
    rw [includeFormat, hh] at hinc
    simp at hinc
    rcases hinc with ⟨-, hc⟩
    exact hc.imp id id
  · rintro ⟨f, hf, hh, hcond⟩
    refine ⟨f, hf, hh, ?_⟩
    rw [includeFormat, hh]
    simp
    exact ⟨by omega, hcond⟩

theorem buildCatalog_inclusion_iff_witness :
    0 < 720 ∧
      (qLabel 720 ∈ buildCatalog false demoFormats ↔
        ∃ f ∈ demoFormats, f.height = some 720 ∧
          (false = true ∨ f.acodec ≠ some "none")) :=
  ⟨by decide, buildCatalog_inclusion_iff false demoFormats 720 (by decide)⟩

/-- C2: `get_best_format` emits exactly the spec's three-tier preference
chain — video+audio at most the target height in the preferred container,
then combined at most the target height in that container, then best of
any kind when the transcoder is available; combined at most the target
height in the container, combined in the container at any height, then
best of any kind otherwise — and the two branches are different strings
for every target height. -/
theorem get_best_format_three_tier :
    ∀ (formats : List RawFormat) (h : Nat),
      (∀ a, get_best_format formats h a = specSelectionChain h a) ∧
        get_best_format formats h true ≠ get_best_format formats h false := by
  intro formats h
  constructor
  · intro a
    cases a <;>
      simp [get_best_format, specSelectionChain, specTierVideoPlusAudio,
        specTierCombinedAtMost, specTierCombinedAny, specTierBest,
        String.append_assoc, append_chunk_best_height]
  · intro heq
    have hlen := congrArg String.length heq
    simp [get_best_format, String.length_append,
      show ("bestvideo[height<=" : String).length = 18 from rfl,
      show ("][ext=mp4]+bestaudio[ext=m4a]/best[height<=" : String).length = 43 from rfl,
      show ("][ext=mp4]/best" : String).length = 15 from rfl,
      show ("best[height<=" : String).length = 13 from rfl,
      show ("][ext=mp4]/best[ext=mp4]/best" : String).length = 29 from rfl] at hlen
    omega

/-- C3: the byte-scaling values of the spec hold below one terabyte, but
at `1024^4` bytes the loop's fall-through divides one extra time and
renders `"1.00 GB"`, not the `"1024.00 GB"` the spec states: the code
mislabels every value from a terabyte up. -/
theorem format_size_values_and_failing_input :
    format_size 0 = "0.00 B" ∧ format_size 1536 = "1.50 KB" ∧
      format_size (1024 * 1024) = "1.00 MB" ∧
      format_size (2 * 1024 ^ 3) = "2.00 GB" ∧
      format_size (1024 ^ 4) = "1.00 GB" := by
  refine ⟨?_, ?_, ?_, ?_, ?_⟩ <;>
    · norm_num [format_size, sizeLoop, format2, roundHalfEven, ratFloor, pad2]
      rfl

/-- C5: the catalog is sorted strictly ascending by the numeric height of
its labels, holds no duplicate label, and is unchanged under any
permutation of the descriptor list. -/
theorem buildCatalog_sorted_nodup_perm (a : Bool) (formats : List RawFormat) :
    (buildCatalog a formats).Pairwise (fun x y => labelNum x < labelNum y) ∧
      (buildCatalog a formats).Nodup ∧
      ∀ formats', formats.Perm formats' →
        buildCatalog a formats = buildCatalog a formats' := by
  refine ⟨?_, ?_, ?_⟩
  · rw [buildCatalog, List.pairwise_map]
    have hs : (((heightList a formats).dedup).insertionSort (· ≤ ·)).Sorted (· < ·) :=
      (List.sorted_insertionSort _ _).lt_of_le (sortedHeights_nodup a formats)
    exact hs.imp (by intro x y hxy; rwa [labelNum_qLabel, labelNum_qLabel])
  · rw [buildCatalog]
    exact (sortedHeights_nodup a formats).map qLabel_injective
  · intro formats' hperm
    rw [buildCatalog, buildCatalog]
    congr 1
    exact List.eq_of_perm_of_sorted
      (((List.perm_insertionSort _ _).trans ((hperm.filterMap _).dedup)).trans
        (List.perm_insertionSort _ _).symm)
      (List.sorted_insertionSort _ _) (List.sorted_insertionSort _ _)

theorem buildCatalog_sorted_nodup_perm_witness :
    demoFormats.Perm demoFormats.reverse ∧
      buildCatalog true demoFormats = buildCatalog true demoFormats.reverse :=
  ⟨by decide,
    (buildCatalog_sorted_nodup_perm true demoFormats).2.2 demoFormats.reverse (by decide)⟩

/-- C4 (counterexample): a launch failure other than `FileNotFoundError`
— here a `PermissionError` — is not caught by the probe's
`except FileNotFoundError` clause and escapes to the caller, refuting
"maps every other failure to launch to false as well, and never raises
an exception to its caller". -/
theorem check_ffmpeg_raises_on_other_error :
    check_ffmpeg (LaunchOutcome.otherError "PermissionError") =
      Except.error "PermissionError" := rfl

/-- C4 (amended): the probe returns true whenever the version-query
subprocess launches, regardless of exit code; returns false exactly when
the executable cannot be located (`FileNotFoundError`); and any other
launch failure propagates to the caller as an uncaught exception. -/
theorem check_ffmpeg_cases (o : LaunchOutcome) :
    (∀ c, o = .launched c → check_ffmpeg o = .ok true) ∧
      (o = .fileNotFound → check_ffmpeg o = .ok false) ∧
      (∀ m, o = .otherError m → check_ffmpeg o = .error m) :=
  ⟨fun c hc => by rw [hc]; rfl, fun hn => by rw [hn]; rfl,
    fun m hm => by rw [hm]; rfl⟩

theorem check_ffmpeg_cases_witness :
    LaunchOutcome.fileNotFound = LaunchOutcome.fileNotFound ∧
      check_ffmpeg LaunchOutcome.fileNotFound = Except.ok false :=
  ⟨rfl, (check_ffmpeg_cases LaunchOutcome.fileNotFound).2.1 rfl⟩

/-- C6: the hook renders exactly when the sample's status is
`"downloading"` and the actual-or-estimated total byte count is truthy;
in every other case it returns nothing (and, being a total function,
raises nothing). -/
theorem progress_hook_renders_iff (d : ProgressSample) :
    (progress_hook d).isSome = true ↔
      d.status = "downloading" ∧ totalOf d ≠ 0 := by
  rw [progress_hook]
  split
  · next hstat =>
    split
    · next htot => simp [hstat, htot]
    · next htot => simp [hstat, htot]
  · next hstat => simp [hstat]

/-- C7: whenever the hook renders, the line contains the percentage
`downloaded / total * 100` to one decimal place followed by `%`, the
speed scaled by `format_size` suffixed `/s` or `N/A` when speed is
falsy, and the ETA as zero-padded minutes:seconds or `N/A` when falsy;
on the spec's §8 sample the line contains `25.0%`, `Speed: N/A` and
`ETA: N/A`. -/
theorem progress_hook_render_contents :
    (∀ d : ProgressSample, d.status = "downloading" → totalOf d ≠ 0 →
      (progress_hook d).isSome = true ∧
        strContains (format1 (d.downloaded_bytes.getD 0 / totalOf d * 100) ++ "%")
          ((progress_hook d).getD "") ∧
        strContains ("Speed: " ++ speedStr d) ((progress_hook d).getD "") ∧
        strContains ("ETA: " ++ etaStr d) ((progress_hook d).getD "")) ∧
      (progress_hook sample7 = some "\rProgress: 25.0% | Speed: N/A | ETA: N/A" ∧
        strContains "25.0%" "\rProgress: 25.0% | Speed: N/A | ETA: N/A" ∧
        strContains "Speed: N/A" "\rProgress: 25.0% | Speed: N/A | ETA: N/A" ∧
        strContains "ETA: N/A" "\rProgress: 25.0% | Speed: N/A | ETA: N/A") := by
  constructor
  · intro d hstat htot
    have hline : progress_hook d =
        some ("\rProgress: " ++ format1 (d.downloaded_bytes.getD 0 / totalOf d * 100)
          ++ "% | Speed: " ++ speedStr d ++ " | ETA: " ++ etaStr d) := by
      rw [progress_hook, if_pos hstat, if_pos htot]
      rfl
    rw [hline]
    refine ⟨rfl, ?_, ?_, ?_⟩
    · have hsplit : ("\rProgress: "
          ++ format1 (d.downloaded_bytes.getD 0 / totalOf d * 100)
          ++ "% | Speed: " ++ speedStr d ++ " | ETA: " ++ etaStr d) =
          "\rProgress: "
            ++ (format1 (d.downloaded_bytes.getD 0 / totalOf d * 100) ++ "%")
            ++ (" | Speed: " ++ speedStr d ++ " | ETA: " ++ etaStr d) := by
        simp [String.append_assoc]
        rfl
      rw [Option.getD_some, hsplit]
      exact strContains_of_parts _ _ _
    · show ("Speed: " ++ speedStr d).data <:+: _
      rw [Option.getD_some]
      simp only [String.data_append]
      refine ⟨"\rProgress: ".data ++
        (format1 (d.downloaded_bytes.getD 0 / totalOf d * 100)).data ++ "% | ".data,
        " | ETA: ".data ++ (etaStr d).data, ?_⟩
      simp [List.append_assoc]
    · show ("ETA: " ++ etaStr d).data <:+: _
      rw [Option.getD_some]
      simp only [String.data_append]
      refine ⟨"\rProgress: ".data ++
        (format1 (d.downloaded_bytes.getD 0 / totalOf d * 100)).data
        ++ "% | Speed: ".data ++ (speedStr d).data ++ " | ".data, [], ?_⟩
      simp [List.append_assoc]
  · refine ⟨?_, by decide, by decide, by decide⟩
    norm_num [progress_hook, sample7, totalOf, pyOr, format1, roundHalfEven, ratFloor]
    rfl

theorem progress_hook_render_contents_witness :
    sample7.status = "downloading" ∧ totalOf sample7 ≠ 0 ∧
      ((progress_hook sample7).isSome = true ∧
        strContains (format1 (sample7.downloaded_bytes.getD 0 / totalOf sample7 * 100) ++ "%")
          ((progress_hook sample7).getD "") ∧
        strContains ("Speed: " ++ speedStr sample7) ((progress_hook sample7).getD "") ∧
        strContains ("ETA: " ++ etaStr sample7) ((progress_hook sample7).getD "")) :=
  ⟨rfl, by norm_num [totalOf, pyOr, sample7],
    progress_hook_render_contents.1 sample7 rfl (by norm_num [totalOf, pyOr, sample7])⟩

/-- C8: a requested quality present in the catalog is used at once, with
no input consumed; otherwise the loop rejects every non-numeric or
out-of-range input and resolves at the first valid 1-based index to that
catalog element; on the spec's §8 example, inputs `abc` and `99` against
a 3-item catalog are rejected and `2` yields the second element. -/
theorem resolveQuality_loop :
    (∀ (q : String) (quality_list inputs : List String), q ≠ "" → q ∈ quality_list →
      resolveQuality (some q) quality_list inputs = some q) ∧
      (∀ (quality_list pre : List String) (inp : String) (k : Int) (rest : List String),
        (∀ s ∈ pre, isInvalid quality_list s = true) →
        pyInt inp = some k → 1 ≤ k → k ≤ quality_list.length →
        selectionLoop quality_list (pre ++ inp :: rest) =
          quality_list.get? (k - 1).toNat) ∧
      selectionLoop catalog3 ["abc", "99", "2"] = some "720p" := by
  refine ⟨?_, ?_, by decide⟩
  · intro q quality_list inputs hq hmem
    rw [resolveQuality, if_neg]
    push_neg
    exact ⟨hq, hmem⟩
  · intro quality_list pre inp k rest hpre hinp h1 h2
    induction pre with
    | nil =>
      simp [selectionLoop, hinp, h1, h2]
    | cons s pre ih =>
      have hs := hpre s (by simp)
      rw [List.cons_append, selectionLoop]
      have hrest : ∀ t ∈ pre, isInvalid quality_list t = true := fun t ht =>
        hpre t (by simp [ht])
      rw [isInvalid] at hs
      cases hc : pyInt s with
      | none => simpa [hc] using ih hrest
      | some c =>
        rw [hc] at hs
        simp only [decide_eq_true_eq] at hs
        simpa [hc, if_neg hs] using ih hrest

theorem resolveQuality_loop_witness :
    (resolveQuality (some "720p") catalog3 [] = some "720p") ∧
      isInvalid catalog3 "abc" = true ∧ isInvalid catalog3 "99" = true ∧
      pyInt "2" = some 2 ∧
      selectionLoop catalog3 (["abc", "99"] ++ "2" :: []) =
        catalog3.get? ((2 : Int) - 1).toNat :=
  ⟨resolveQuality_loop.1 "720p" catalog3 [] (by decide) (by decide),
    by decide, by decide, by decide,
    resolveQuality_loop.2.1 catalog3 ["abc", "99"] "2" 2 [] (by decide) (by decide)
      (by decide) (by decide)⟩

theorem ytd_format_size_eq : YTDownloader.format_size = format_size :=
  funext fun b => ytd_sizeLoop_eq ["B", "KB", "MB", "GB"] b

/-- C9: the class-based module computes exactly what the procedural one
does — the probe, the byte-scaling function, the selection-expression
builder and the progress renderer agree on every input. -/
theorem modules_equivalent :
    (∀ o, YTDownloader.check_ffmpeg o = check_ffmpeg o) ∧
      (∀ b, YTDownloader.format_size b = format_size b) ∧
      (∀ (formats : List RawFormat) (h : Nat) (a : Bool),
        YTDownloader.get_best_format formats h a = get_best_format formats h a) ∧
      (∀ d, YTDownloader.progress_hook d = progress_hook d) := by
  refine ⟨fun o => rfl, fun b => ytd_sizeLoop_eq _ b, fun formats h a => rfl, fun d => ?_⟩
  rw [YTDownloader.progress_hook, progress_hook, ytd_format_size_eq]

/-- C10: the selection expression never depends on the `formats`
argument: any two descriptor lists give the same result for every target
height and availability flag. -/
theorem get_best_format_ignores_formats :
    ∀ (formats1 formats2 : List RawFormat) (h : Nat) (a : Bool),
      get_best_format formats1 h a = get_best_format formats2 h a :=
  fun _ _ _ _ => rfl
